import Mathlib

set_option linter.unusedVariables false
set_option maxRecDepth 1000000

/-!
Verification of the arb-wallet-scripts command-line tool.

The TypeScript sources under src/ are shallowly embedded here.  JavaScript
strings are modelled as lists of characters (`Str`); the chain, wallet and
bridge collaborators are modelled as records of oracle values supplied to
each flow; every command flow is embedded as a function from its
environment, oracle record and argument list to the ordered list of
externally visible events it performs (RPC calls, bridge calls, transaction
submission, process exit).  Transport-level RPC failures, which the source
only routes to a catch-all handler, are not modelled; every modelled RPC
call returns the value recorded in the oracle record.
-/

/-- JavaScript strings are modelled as lists of characters. -/
abbrev Str := List Char

/-- Embed a Lean string literal as a character list. -/
def str (s : String) : Str := s.data

/-- ASCII lower-casing of one character, as `String.prototype.toLowerCase`
acts on the ASCII range used by hex addresses. -/
def lowerChar (c : Char) : Char :=
  if 65 ≤ c.toNat ∧ c.toNat ≤ 90 then Char.ofNat (c.toNat + 32) else c

/-- ASCII upper-casing of one character. -/
def upperChar (c : Char) : Char :=
  if 97 ≤ c.toNat ∧ c.toNat ≤ 122 then Char.ofNat (c.toNat - 32) else c

/-- `s.toLowerCase()` on the ASCII range. -/
def asciiLower (s : Str) : Str := s.map lowerChar

/-- `s.toUpperCase()` on the ASCII range. -/
def asciiUpper (s : Str) : Str := s.map upperChar

/-- Decimal digit test, `0` to `9`. -/
def isDigitChar (c : Char) : Bool := 48 ≤ c.toNat ∧ c.toNat ≤ 57

/-- Hex digit test, `0-9a-fA-F`. -/
def isHexChar (c : Char) : Bool :=
  isDigitChar c ∨ (97 ≤ c.toNat ∧ c.toNat ≤ 102) ∨ (65 ≤ c.toNat ∧ c.toNat ≤ 70)

/-- Lower-case hex letter test, `a-f`. -/
def isLowerHexLetter (c : Char) : Bool := 97 ≤ c.toNat ∧ c.toNat ≤ 102

/-- Upper-case hex letter test, `A-F`. -/
def isUpperHexLetter (c : Char) : Bool := 65 ≤ c.toNat ∧ c.toNat ≤ 70

/-- JavaScript whitespace characters skipped by `parseFloat` (ASCII part). -/
def isJsWs (c : Char) : Bool :=
  c = ' ' ∨ c = '\t' ∨ c = '\n' ∨ c = '\r' ∨ c.toNat = 11 ∨ c.toNat = 12

/-- `String.prototype.split` with a one-character separator, as used by
`argsMatch[1].split(",")` in callstylus.ts and l1tostylus.ts.  The empty
string splits to one empty field, exactly as in JavaScript. -/
def jsSplit (sep : Char) : Str → List Str
  | [] => [[]]
  | c :: cs =>
    match jsSplit sep cs with
    | [] => [[]]
    | h :: t => if c = sep then [] :: h :: t else (c :: h) :: t

/-- `String.prototype.trim`: strip JavaScript whitespace from both ends. -/
def jsTrim (s : Str) : Str :=
  ((s.dropWhile isJsWs).reverse.dropWhile isJsWs).reverse

/-- Whether `parseFloat(s)` yields a non-NaN value: after optional leading
whitespace and an optional sign, the string must start a decimal literal,
which is a digit, a dot followed by a digit, or the literal `Infinity`. -/
def jsParseFloatNotNaN (s : Str) : Bool :=
  match s.dropWhile isJsWs with
  | '+' :: r => startsDecimalLiteral r
  | '-' :: r => startsDecimalLiteral r
  | r => startsDecimalLiteral r
where
  /-- The unsigned part of a `StrDecimalLiteral` prefix test. -/
  startsDecimalLiteral : Str → Bool
    | 'I' :: 'n' :: 'f' :: 'i' :: 'n' :: 'i' :: 't' :: 'y' :: _ => true
    | '.' :: c :: _ => isDigitChar c
    | c :: _ => isDigitChar c
    | [] => false

/-- The contents of the first parenthesis group of `tok`, as matched by the
regular expression `\(([^)]*)\)` in callstylus.ts line 68 and
l1tostylus.ts line 93: the characters between the first `(` and the first
`)` after it, or nothing when no such pair exists. -/
def firstParenGroup (tok : Str) : Option Str :=
  let rest := (tok.dropWhile (fun c => !(c = '('))).drop 1
  if rest.contains ')' then some (rest.takeWhile (fun c => !(c = ')'))) else none

/-- The function-call token parser shared by callstylus.ts lines 62-77 and
l1tostylus.ts lines 88-102: the name is the part before the first `(`, the
arguments are the first parenthesis group split on commas, trimmed, with
empty segments dropped; an empty or absent group yields no arguments, and a
token with no `(` is all name. -/
def parseFunctionCall (tok : Str) : Str × List Str :=
  if tok.contains '(' then
    let name := tok.takeWhile (fun c => !(c = '('))
    match firstParenGroup tok with
    | none => (name, [])
    | some g =>
      if g = [] then (name, [])
      else (name, ((jsSplit ',' g).map jsTrim).filter (fun a => !a.isEmpty))
  else (tok, [])

/-- The optional second CLI token carrying a transaction value, from
callstylus.ts lines 79-82 and l1tostylus.ts lines 104-107: taken whenever
`parseFloat(args[1])` is not NaN, otherwise `"0"`. -/
def resolveValueToken (args : List Str) : Str :=
  if 1 < args.length then
    if jsParseFloatNotNaN (args.getD 1 (str "")) then args.getD 1 (str "")
    else str "0"
  else str "0"

/-! ## Keccak-256 and the ethers v5 address validator

Every flow validates addresses through `ethers.utils.isAddress`, which is
`getAddress` wrapped in a try/catch.  `getAddress` accepts a 40-hex-digit
string with optional `0x` prefix, enforcing the EIP-55 checksum whenever
the string mixes upper- and lower-case hex letters, and also accepts a
valid ICAP (`XE`-prefixed base-36) address.  The checksum requires
Keccak-256, which is embedded below over `Nat` lanes. -/

/-- 64-bit left rotation on a `Nat` holding a 64-bit lane. -/
def rotl64 (n k : Nat) : Nat :=
  ((n <<< k) ||| (n >>> (64 - k))) % (2 ^ 64)

/-- 64-bit bitwise complement. -/
def not64 (n : Nat) : Nat := n ^^^ (2 ^ 64 - 1)

/-- Lane lookup in a 25-lane Keccak state. -/
def lane (A : List Nat) (i : Nat) : Nat := A.getD i 0

/-- Keccak theta step. -/
def keccakTheta (A : List Nat) : List Nat :=
  let C := (List.range 5).map (fun x =>
    lane A x ^^^ lane A (x + 5) ^^^ lane A (x + 10) ^^^ lane A (x + 15) ^^^ lane A (x + 20))
  let D := (List.range 5).map (fun x =>
    lane C ((x + 4) % 5) ^^^ rotl64 (lane C ((x + 1) % 5)) 1)
  (List.range 25).map (fun i => lane A i ^^^ lane D (i % 5))

/-- Source lane index and rotation amount for each target lane of the
combined rho and pi steps. -/
def rhoPiTable : List (Nat × Nat) :=
  [(0, 0), (6, 44), (12, 43), (18, 21), (24, 14),
   (3, 28), (9, 20), (10, 3), (16, 45), (22, 61),
   (1, 1), (7, 6), (13, 25), (19, 8), (20, 18),
   (4, 27), (5, 36), (11, 10), (17, 15), (23, 56),
   (2, 62), (8, 55), (14, 39), (15, 41), (21, 2)]

/-- Keccak rho and pi steps. -/
def keccakRhoPi (A : List Nat) : List Nat :=
  rhoPiTable.map (fun p => if p.2 = 0 then lane A p.1 else rotl64 (lane A p.1) p.2)

/-- Keccak chi step. -/
def keccakChi (A : List Nat) : List Nat :=
  (List.range 25).map (fun i =>
    let x := i % 5
    let row := i - x
    lane A i ^^^ (not64 (lane A (row + (x + 1) % 5)) &&& lane A (row + (x + 2) % 5)))

/-- Keccak round constants. -/
def keccakRC : List Nat :=
  [0x0000000000000001, 0x0000000000008082, 0x800000000000808a, 0x8000000080008000,
   0x000000000000808b, 0x0000000080000001, 0x8000000080008081, 0x8000000000008009,
   0x000000000000008a, 0x0000000000000088, 0x0000000080008009, 0x000000008000000a,
   0x000000008000808b, 0x800000000000008b, 0x8000000000008089, 0x8000000000008003,
   0x8000000000008002, 0x8000000000000080, 0x000000000000800a, 0x800000008000000a,
   0x8000000080008081, 0x8000000000008080, 0x0000000080000001, 0x8000000080008008]

/-- One Keccak-f[1600] round. -/
def keccakRound (A : List Nat) (rc : Nat) : List Nat :=
  match keccakChi (keccakRhoPi (keccakTheta A)) with
  | [] => []
  | a0 :: rest => (a0 ^^^ rc) :: rest

/-- The Keccak-f[1600] permutation: 24 rounds. -/
def keccakF (A : List Nat) : List Nat := keccakRC.foldl keccakRound A

/-- Assemble one 64-bit lane from eight little-endian bytes. -/
def bytesToLane (bs : List Nat) : Nat :=
  bs.foldr (fun b acc => b + 256 * acc) 0

/-- Split a byte list into blocks of 136 bytes, the Keccak-256 rate. -/
def blocks136 (fuel : Nat) (l : List Nat) : List (List Nat) :=
  match fuel with
  | 0 => []
  | f + 1 =>
    match l with
    | [] => []
    | _ => l.take 136 :: blocks136 f (l.drop 136)

/-- Absorb one 136-byte block into the state. -/
def absorbBlock (A : List Nat) (block : List Nat) : List Nat :=
  keccakF ((List.range 25).map (fun i =>
    if i < 17 then lane A i ^^^ bytesToLane ((block.drop (8 * i)).take 8) else lane A i))

/-- The eight little-endian bytes of a 64-bit lane. -/
def laneBytes (n : Nat) : List Nat :=
  [n % 256, n / 256 % 256, n / 256 ^ 2 % 256, n / 256 ^ 3 % 256,
   n / 256 ^ 4 % 256, n / 256 ^ 5 % 256, n / 256 ^ 6 % 256, n / 256 ^ 7 % 256]

/-- Keccak-256 of a byte sequence: multi-rate padding with domain byte
`0x01`, absorption at rate 136 bytes, and a 32-byte digest. -/
def keccak256 (msg : List Nat) : List Nat :=
  let r := 136 - msg.length % 136
  let padded := if r = 1 then msg ++ [0x81]
    else msg ++ 0x01 :: List.replicate (r - 2) 0 ++ [0x80]
  let final := (blocks136 padded.length padded).foldl absorbBlock (List.replicate 25 0)
  laneBytes (lane final 0) ++ laneBytes (lane final 1) ++
    laneBytes (lane final 2) ++ laneBytes (lane final 3)

/-- Alphanumeric character test, `0-9A-Za-z`. -/
def isAlphaNumChar (c : Char) : Bool :=
  isDigitChar c ∨ (65 ≤ c.toNat ∧ c.toNat ≤ 90) ∨ (97 ≤ c.toNat ∧ c.toNat ≤ 122)

/-- The EIP-55 checksummed form of a `0x`-prefixed 40-hex-digit address, as
computed by ethers v5 `getChecksumAddress`: each hex letter of the
lower-cased body is upper-cased exactly when the corresponding nibble of
the Keccak-256 hash of the lower-cased body is at least 8.  Yields nothing
when the input is not a 42-character `0x`-prefixed hex string, where the
source throws. -/
def getChecksumAddress (address : Str) : Option Str :=
  if address.length = 42 ∧ address.take 2 = str "0x" ∧ (address.drop 2).all isHexChar then
    let body := (asciiLower address).drop 2
    let hashed := keccak256 (body.map Char.toNat)
    let nibbles := (hashed.take 20).foldr (fun b acc => b / 16 :: b % 16 :: acc) []
    some ('0' :: 'x' ::
      (body.zip nibbles).map (fun p => if 8 ≤ p.2 then upperChar p.1 else p.1))
  else none

/-- The mixed-case test of ethers v5 `getAddress`, the regular expression
`([A-F].*[a-f])|([a-f].*[A-F])`: the string contains both an upper-case
and a lower-case hex letter, in either order. -/
def mixedHexCase (s : Str) : Bool :=
  s.any isUpperHexLetter && s.any isLowerHexLetter

/-- The shape test `(0x)?[0-9a-fA-F]{40}` anchored at both ends. -/
def hexShape40 (s : Str) : Bool :=
  (s.take 2 = str "0x" ∧ (s.drop 2).length = 40 ∧ (s.drop 2).all isHexChar) ∨
    (s.length = 40 ∧ s.all isHexChar)

/-- The ICAP shape test `XE[0-9]{2}[0-9A-Za-z]{30,31}` anchored at both
ends. -/
def icapShape (s : Str) : Bool :=
  (s.length = 34 ∨ s.length = 35) ∧ s.take 2 = str "XE" ∧
    ((s.drop 2).take 2).all isDigitChar ∧ (s.drop 4).all isAlphaNumChar

/-- IBAN expansion: decimal digits keep their value, letters `A`-`Z`
expand to the two decimal digits of 10 to 35. -/
def ibanExpand (s : Str) : List Nat :=
  s.foldr (fun c acc =>
    if isDigitChar c then (c.toNat - 48) :: acc
    else ((c.toNat - 55) / 10) :: ((c.toNat - 55) % 10) :: acc) []

/-- The value of a big-endian list of decimal digit values. -/
def decDigitsVal (ds : List Nat) : Nat := ds.foldl (fun n d => 10 * n + d) 0

/-- Decimal digits of a natural number, via explicit fuel. -/
def natToDecAux : Nat → Nat → Str
  | 0, _ => []
  | f + 1, n => if n = 0 then [] else natToDecAux f (n / 10) ++ [Nat.digitChar (n % 10)]

/-- Decimal string of a natural number, `"0"` for zero. -/
def natToDecStr (n : Nat) : Str := if n = 0 then ['0'] else natToDecAux (n + 1) n

/-- The IBAN checksum digits of an ICAP address, as in ethers v5
`ibanChecksum`: move the first four characters to the end, replace the
checksum digits by `00`, expand letters to numbers and take
`98 - (value mod 97)`, padded to two digits. -/
def ibanChecksum (s : Str) : Str :=
  let up := asciiUpper s
  let re := up.drop 4 ++ up.take 2 ++ str "00"
  let c := 98 - decDigitsVal (ibanExpand re) % 97
  if (natToDecStr c).length < 2 then '0' :: natToDecStr c else natToDecStr c

/-- Base-36 digit value, case-insensitive. -/
def base36Digit (c : Char) : Nat :=
  if isDigitChar c then c.toNat - 48
  else if 97 ≤ c.toNat then c.toNat - 87 else c.toNat - 55

/-- Value of a base-36 string. -/
def base36Val (s : Str) : Nat := s.foldl (fun n c => 36 * n + base36Digit c) 0

/-- Hex digits of a natural number, via explicit fuel. -/
def natToHexAux : Nat → Nat → Str
  | 0, _ => []
  | f + 1, n => if n = 0 then [] else natToHexAux f (n / 16) ++ [Nat.digitChar (n % 16)]

/-- Minimal lower-case hex string of a natural number, `"0"` for zero. -/
def natToHexStr (n : Nat) : Str := if n = 0 then ['0'] else natToHexAux (n + 1) n

/-- Left-pad a string with `0` to 40 characters, as the ICAP branch does. -/
def leftPad40 (s : Str) : Str := List.replicate (40 - s.length) '0' ++ s

/-- Prepend the `0x` prefix when it is absent. -/
def normalize0x (s : Str) : Str :=
  if s.take 2 = str "0x" then s else '0' :: 'x' :: s

/-- ethers v5 `getAddress`: a 40-hex-digit string with optional `0x`
prefix is normalized and checksummed, and rejected when it mixes cases and
disagrees with its EIP-55 checksum; an ICAP address with a valid IBAN
checksum is converted from base 36; everything else is rejected. -/
def getAddress (s : Str) : Option Str :=
  if hexShape40 s then
    match getChecksumAddress (normalize0x s) with
    | none => none
    | some result =>
      if mixedHexCase (normalize0x s) && !(result == normalize0x s) then none
      else some result
  else if icapShape s then
    if ((s.drop 2).take 2) = ibanChecksum s then
      getChecksumAddress ('0' :: 'x' :: leftPad40 (natToHexStr (base36Val (s.drop 4))))
    else none
  else none

/-- ethers v5 `isAddress`: `getAddress` wrapped in a try/catch. -/
def isAddress (s : Str) : Bool := (getAddress s).isSome

/-- The address shape stated by the spec: exactly 40 hexadecimal
characters after an optional `0x` prefix.  Stated independently of
`getAddress` for comparison with the validator the code uses. -/
def specAddr40Hex (s : Str) : Bool :=
  if s.take 2 = str "0x" then (s.drop 2).length = 40 ∧ (s.drop 2).all isHexChar
  else s.length = 40 ∧ s.all isHexChar

/-! ## BigNumber arithmetic and decimal formatting

ethers v5 `BigNumber` values are arbitrary-precision integers, embedded as
`Int`.  Division truncates toward zero.  `parseEther` and `formatEther`
are `parseFixed`/`formatFixed` with 18 decimals; `parseEther` yields
nothing where the source throws. -/

/-- `BigNumber.div`: truncated toward zero. -/
def bnDiv (a b : Int) : Int := Int.tdiv a b

/-- Value of a string of decimal digit characters. -/
def decStrVal (s : Str) : Nat := s.foldl (fun n c => 10 * n + (c.toNat - 48)) 0

/-- Strip trailing `0` characters. -/
def dropTrailingZeros (s : Str) : Str :=
  (s.reverse.dropWhile (fun c => c = '0')).reverse

/-- ethers v5 `parseFixed(value, 18)`: the value must match
`-?[0-9.]+` anchored at both ends, must not be a bare dot and must have at
most one dot; missing whole or fractional parts default to `0`, trailing
fractional zeros are trimmed, and a fraction longer than 18 digits is an
underflow error.  The result is whole times 10 to the 18 plus the
right-padded fraction, negated for a leading minus sign. -/
def parseEther (s : Str) : Option Int :=
  let v := if s.take 1 = str "-" then s.drop 1 else s
  if v = [] then none
  else if !(v.all (fun c => isDigitChar c || c = '.')) then none
  else if v = str "." then none
  else
    let comps := jsSplit '.' v
    if 2 < comps.length then none
    else
      let whole := if comps.getD 0 [] = [] then str "0" else comps.getD 0 []
      let fractionGiven := if comps.getD 1 [] = [] then str "0" else comps.getD 1 []
      let fractionTrimmed := dropTrailingZeros fractionGiven
      if 18 < fractionTrimmed.length then none
      else
        let fraction := if fractionTrimmed = [] then str "0" else fractionTrimmed
        let padded := fraction ++ List.replicate (18 - fraction.length) '0'
        let mag : Int := (decStrVal whole) * 10 ^ 18 + decStrVal padded
        some (if s.take 1 = str "-" then -mag else mag)

/-- ethers v5 `formatFixed(value, 18)`: the fractional part is left-padded
to 18 digits, then trailing zeros are stripped down to at least one digit;
whole and fraction are joined by a dot and a minus sign is prepended for
negative values. -/
def formatEther (v : Int) : Str :=
  let a := v.natAbs
  let fractionRaw := natToDecStr (a % 10 ^ 18)
  let fractionPadded := List.replicate (18 - fractionRaw.length) '0' ++ fractionRaw
  let fraction :=
    if dropTrailingZeros fractionPadded = [] then str "0"
    else dropTrailingZeros fractionPadded
  let s := natToDecStr (a / 10 ^ 18) ++ '.' :: fraction
  if v < 0 then '-' :: s else s

/-- `BigNumber.toString`: signed decimal representation. -/
def intToStr (v : Int) : Str :=
  if v < 0 then '-' :: natToDecStr v.natAbs else natToDecStr v.natAbs

/-- The JavaScript `<` operator on two strings: lexicographic comparison
of code units.  l2transfer.ts line 126 applies `<` to two `BigNumber`
objects, which JavaScript first converts to their decimal string
representations, so the funds comparison there is this string order on
`BigNumber.toString` values. -/
def jsStrLt : Str → Str → Bool
  | _, [] => false
  | [], _ :: _ => true
  | a :: as, b :: bs =>
    if a.toNat < b.toNat then true
    else if b.toNat < a.toNat then false
    else jsStrLt as bs

/-! ## Event traces of the command flows

Each command flow is embedded as a function yielding the ordered list of
externally visible events it performs.  `Ev.exit n` is `process.exit(n)`;
a trace ending in `Ev.done` is a normal return, and the process then exits
with code 0. -/

/-- Externally visible events of a flow. -/
inductive Ev where
  | getNetwork : Ev
  | getBalance : Ev
  | getFeeData : Ev
  | getGasPrice : Ev
  | estimateGas : Ev
  | bridgeGetNetwork : Ev
  | bridgeEstimate : Ev
  | bridgeDeposit : Ev
  | sendTx : Ev
  | waitMined : Ev
  | getMessages : Ev
  | msgStatus : Ev
  | waitCrossLayer : Ev
  | viewCall : Ev
  | done : Ev
  | exit : Nat → Ev
deriving DecidableEq, Repr

/-- Whether an event is a `process.exit`. -/
def isExitEv : Ev → Bool
  | Ev.exit _ => true
  | _ => false

/-- Whether an event is a network request to an RPC or bridge
collaborator. -/
def isRpcEv : Ev → Bool
  | Ev.exit _ => false
  | Ev.done => false
  | _ => true

/-- The process exit code of a finished trace: the code of a final
`process.exit`, and 0 for a normal return. -/
def exitCode (t : List Ev) : Nat :=
  match t.getLast? with
  | some (Ev.exit n) => n
  | _ => 0

/-- The network requests a flow issues before its first `process.exit`. -/
def rpcCallsBeforeExit (t : List Ev) : List Ev :=
  (t.takeWhile (fun e => !(isExitEv e))).filter isRpcEv

/-- The environment variables consumed by the flows; a missing variable is
the empty string, exactly as `process.env.X || ""` makes it. -/
structure Env where
  sourceAddress : Str
  targetAddress : Str
  sourcePrivateKey : Str
  counterContractAddress : Str
  l1RpcUrl : Str

/-! ## l2transfer (src/l2transfer.ts) -/

/-- One step of the l2transfer argument loop, lines 30-38: an
address-shaped token overwrites the target, otherwise a token with a
non-NaN `parseFloat` overwrites the amount, and any other token is
ignored. -/
def resolveArg (st : Str × Str) (a : Str) : Str × Str :=
  if isAddress a then (a, st.2)
  else if jsParseFloatNotNaN a then (st.1, a)
  else st

/-- The l2transfer argument resolution: fold the argument loop over the
default target from the environment and the default amount `"0.01"`,
yielding the pair of target and amount. -/
def resolveTransferArgs (defTarget : Str) (args : List Str) : Str × Str :=
  args.foldl resolveArg (defTarget, str "0.01")

/-- Oracle values for one l2transfer run. -/
structure L2World where
  walletAddr : Str
  sourceBalance : Int
  targetBalance : Int
  gasPrice : Option Int
  estimatedGas : Int

/-- The body of the l2transfer try block, lines 67-164: identity check,
network call, two balance reads, fee data with a null gas price throwing,
amount conversion, gas estimation, then the funds comparison of line 126,
which compares the two `BigNumber` objects with the JavaScript `<`
operator and therefore compares their decimal string forms; on success the
transaction is sent, mined and balances re-read. -/
def transferTry (env : Env) (w : L2World) (target amount : Str) : List Ev :=
  if asciiLower w.walletAddr = asciiLower env.sourceAddress then
    Ev.getNetwork :: Ev.getBalance :: Ev.getBalance :: Ev.getFeeData ::
      (match w.gasPrice with
      | none => [Ev.exit 1]
      | some gp =>
        match parseEther amount with
        | none => [Ev.exit 1]
        | some amountWei =>
          Ev.estimateGas ::
            (match parseEther (formatEther w.sourceBalance) with
            | none => [Ev.exit 1]
            | some balWei =>
              if jsStrLt (intToStr balWei) (intToStr (amountWei + w.estimatedGas * gp)) then
                [Ev.exit 1]
              else [Ev.sendTx, Ev.waitMined, Ev.getBalance, Ev.getBalance, Ev.done]))
  else [Ev.exit 1]

/-- The l2transfer command, src/l2transfer.ts: environment checks,
argument resolution, target presence check, the two address validations,
then the try block. -/
def transferTrace (env : Env) (w : L2World) (args : List Str) : List Ev :=
  if env.sourceAddress = [] then [Ev.exit 1]
  else if env.sourcePrivateKey = [] then [Ev.exit 1]
  else if (resolveTransferArgs env.targetAddress args).1 = [] then [Ev.exit 1]
  else if isAddress env.sourceAddress then
    if isAddress (resolveTransferArgs env.targetAddress args).1 then
      transferTry env w (resolveTransferArgs env.targetAddress args).1
        (resolveTransferArgs env.targetAddress args).2
    else [Ev.exit 1]
  else [Ev.exit 1]

/-! ## l1deposit (src/l1deposit.ts) -/

/-- Oracle values for one l1deposit run.  `childComplete` is the
`complete` field of the cross-layer result returned by
`waitForChildTransactionReceipt`. -/
structure DepositWorld where
  walletAddr : Str
  l1Balance : Int
  childComplete : Bool

/-- The body of the l1deposit try block, lines 64-171: identity check, two
network calls, two balance reads, bridge network lookup, amount conversion,
the L1 balance read and the 1.2-times funds guard of line 107 (a numeric
`BigNumber.lt` comparison), then the bridge deposit (`deposit` or
`depositTo` according to whether source and target match), the L1 wait and
the cross-layer wait.  A non-complete cross-layer result is only logged,
lines 162-166, and the flow still re-reads balances and returns. -/
def depositTry (env : Env) (w : DepositWorld) (l2Target amount : Str) : List Ev :=
  if asciiLower w.walletAddr = asciiLower env.sourceAddress then
    Ev.getNetwork :: Ev.getNetwork :: Ev.getBalance :: Ev.getBalance ::
      Ev.bridgeGetNetwork ::
      (match parseEther amount with
      | none => [Ev.exit 1]
      | some amountWei =>
        Ev.getBalance ::
          if w.l1Balance < bnDiv (amountWei * 12) 10 then [Ev.exit 1]
          else
            (if asciiLower env.sourceAddress = asciiLower l2Target then Ev.bridgeDeposit
            else Ev.bridgeDeposit) ::
              [Ev.waitMined, Ev.waitCrossLayer, Ev.getBalance, Ev.getBalance, Ev.done])
  else [Ev.exit 1]

/-- The l1deposit command, src/l1deposit.ts: the L1 endpoint, source and
key environment checks, target defaulting to source, the two address
validations, the amount token (first argument or `"0.01"`, taken with no
validation), then the try block. -/
def depositTrace (env : Env) (w : DepositWorld) (args : List Str) : List Ev :=
  if env.l1RpcUrl = [] then [Ev.exit 1]
  else if env.sourceAddress = [] then [Ev.exit 1]
  else if env.sourcePrivateKey = [] then [Ev.exit 1]
  else if isAddress env.sourceAddress then
    if isAddress (if env.targetAddress = [] then env.sourceAddress else env.targetAddress) then
      depositTry env w
        (if env.targetAddress = [] then env.sourceAddress else env.targetAddress)
        (args.headD (str "0.01"))
    else [Ev.exit 1]
  else [Ev.exit 1]

/-- The wei value of the optional value token, as both contract-call
flows compute it: `parseEther` when the token is not `"0"`, otherwise a
zero `BigNumber` with no conversion. -/
def parseEtherValue (s : Str) : Option Int :=
  if s = str "0" then some 0 else parseEther s

/-! ## Known contract functions (callstylus.ts and l1tostylus.ts)

Both contract-call flows build calls against the hard-coded counter ABI.
A call with a name outside the ABI, or with the wrong number of
arguments, throws inside ethers before any network request; a `uint256`
argument must be a value `BigNumber.from` accepts, modelled here as a
nonempty decimal digit string, the only form the flows are exercised
with. -/

/-- Whether a token is accepted as a `uint256` argument. -/
def uintArgOk (s : Str) : Bool := !s.isEmpty && s.all isDigitChar

/-- Whether the client-side call encoding succeeds for a function name and
argument list against the counter ABI. -/
def encodeOk (name : Str) (args : List Str) : Bool :=
  if name = str "number" then args.isEmpty
  else if name = str "setNumber" ∨ name = str "mulNumber" ∨ name = str "addNumber" then
    args.length = 1 ∧ (args.headD []).isEmpty = false ∧ (args.headD []).all isDigitChar
  else if name = str "increment" ∨ name = str "addFromMsgValue" then args.isEmpty
  else false

/-! ## callstylus (src/callstylus.ts) -/

/-- Oracle values for one callstylus run. -/
structure CallWorld where
  walletAddr : Str
  callerBalance : Int

/-- The body of the callstylus try block, lines 87-183: network call,
caller balance read, value conversion (line 126, before the view branch),
then either a view call, or, for state-changing calls, the private-key
presence check, the identity check of line 146, the transaction, its wait,
the follow-up counter read (inner try, its failure only logged) and the
balance re-read. -/
def callTry (env : Env) (w : CallWorld) (fname : Str) (fargs : List Str)
    (valueToSend : Str) : List Ev :=
  Ev.getNetwork :: Ev.getBalance ::
    (match parseEtherValue valueToSend with
    | none => [Ev.exit 1]
    | some _ =>
      if fname = str "number" then
        if encodeOk fname fargs then [Ev.viewCall, Ev.done] else [Ev.exit 1]
      else if env.sourcePrivateKey = [] then [Ev.exit 1]
      else if asciiLower w.walletAddr = asciiLower env.sourceAddress then
        if encodeOk fname fargs then
          Ev.sendTx :: Ev.waitMined ::
            ((if fname = str "number" then [] else [Ev.viewCall]) ++
              [Ev.getBalance, Ev.done])
        else [Ev.exit 1]
      else [Ev.exit 1])

/-- The callstylus command, src/callstylus.ts: source and contract
environment checks, the two address validations, the non-empty argument
check, the function-call token parse and value token, then the try
block. -/
def callTrace (env : Env) (w : CallWorld) (args : List Str) : List Ev :=
  if env.sourceAddress = [] then [Ev.exit 1]
  else if env.counterContractAddress = [] then [Ev.exit 1]
  else if isAddress env.sourceAddress then
    if isAddress env.counterContractAddress then
      if args.isEmpty then [Ev.exit 1]
      else
        callTry env w (parseFunctionCall (args.headD [])).1
          (parseFunctionCall (args.headD [])).2 (resolveValueToken args)
    else [Ev.exit 1]
  else [Ev.exit 1]

/-! ## l1tostylus (src/l1tostylus.ts) -/

/-- Oracle values for one l1tostylus run.  `msgRedeemed` is whether the
cross-layer message reaches `ParentToChildMessageStatus.REDEEMED`. -/
structure StylusWorld where
  walletAddr : Str
  maxSubmissionCost : Int
  gasLimit : Int
  maxFeePerGas : Int
  l1Balance : Int
  messagesEmpty : Bool
  msgRedeemed : Bool

/-- The body of the l1tostylus try block, lines 109-307: identity check,
the two network calls, then the view-function rejection of lines 138-144,
the call encoding, value conversion, two balance reads, bridge network
lookup, the L1 gas price read and bridge gas estimation, the L1 balance
read and submission-cost funds guard (numeric `BigNumber.lt`), the
transaction, the L1 wait, the message lookup failing when no message is
found, the status read and cross-layer wait.  A non-redeemed terminal
status is only logged, lines 298-302, and the flow still re-reads
balances and returns; a redeemed one additionally reads the counter. -/
def stylusTry (env : Env) (w : StylusWorld) (fname : Str) (fargs : List Str)
    (valueToSend : Str) : List Ev :=
  if asciiLower w.walletAddr = asciiLower env.sourceAddress then
    Ev.getNetwork :: Ev.getNetwork ::
      (if fname = str "number" then [Ev.exit 1]
      else if encodeOk fname fargs then
        match parseEtherValue valueToSend with
        | none => [Ev.exit 1]
        | some _ =>
          Ev.getBalance :: Ev.getBalance :: Ev.bridgeGetNetwork :: Ev.getGasPrice ::
            Ev.bridgeEstimate :: Ev.getBalance ::
            if w.l1Balance < w.maxSubmissionCost then [Ev.exit 1]
            else
              Ev.sendTx :: Ev.waitMined :: Ev.getMessages ::
                if w.messagesEmpty then [Ev.exit 1]
                else
                  Ev.msgStatus :: Ev.waitCrossLayer ::
                    ((if w.msgRedeemed then [Ev.viewCall] else []) ++
                      [Ev.getBalance, Ev.getBalance, Ev.done])
      else [Ev.exit 1])
  else [Ev.exit 1]

/-- The l1tostylus command, src/l1tostylus.ts: the L1 endpoint, source,
key and contract environment checks, the two address validations, the
non-empty argument check, the function-call token parse and value token,
then the try block. -/
def stylusTrace (env : Env) (w : StylusWorld) (args : List Str) : List Ev :=
  if env.l1RpcUrl = [] then [Ev.exit 1]
  else if env.sourceAddress = [] then [Ev.exit 1]
  else if env.sourcePrivateKey = [] then [Ev.exit 1]
  else if env.counterContractAddress = [] then [Ev.exit 1]
  else if isAddress env.sourceAddress then
    if isAddress env.counterContractAddress then
      if args.isEmpty then [Ev.exit 1]
      else
        stylusTry env w (parseFunctionCall (args.headD [])).1
          (parseFunctionCall (args.headD [])).2 (resolveValueToken args)
    else [Ev.exit 1]
  else [Ev.exit 1]

/-- A token taking the amount branch of the l2transfer argument loop: not
address-shaped, but with a non-NaN `parseFloat`. -/
def numericTok (a : Str) : Bool := !isAddress a && jsParseFloatNotNaN a

/-- Join string parts with a separator character, the inverse image used
to state the parser round trip. -/
def joinSep (sep : Char) : List Str → Str
  | [] => []
  | [p] => p
  | p :: ps => p ++ sep :: joinSep sep ps

/-! ## Concrete environments and oracle records used by the concrete
runs -/

/-- A valid all-lower-case address. -/
def addrA : Str := str "0x1111111111111111111111111111111111111111"

/-- A second valid all-lower-case address. -/
def addrB : Str := str "0x2222222222222222222222222222222222222222"

/-- A third valid all-lower-case address, used as the contract address. -/
def addrC : Str := str "0x3333333333333333333333333333333333333333"

/-- Environment for l2transfer runs: source `addrA`, default target
`addrB`, a private key present. -/
def envL2 : Env := ⟨addrA, addrB, str "k", [], []⟩

/-- Environment for the cross-layer flows: source `addrA`, no target
override, a private key, contract `addrC`, an L1 endpoint. -/
def envDep : Env := ⟨addrA, [], str "k", addrC, str "h"⟩

/-- l2transfer oracle: wallet matches source, source balance 9 wei, gas
price 10 wei, estimated gas 1, so a transfer of 20 wei needs 30 wei. -/
def wLow : L2World := ⟨addrA, 9, 0, some 10, 1⟩

/-- l2transfer oracle: as `wLow` but with source balance 100 wei, so a
transfer of 10 wei needs 20 wei and is affordable. -/
def wHigh : L2World := ⟨addrA, 100, 0, some 10, 1⟩

/-- l2transfer oracle whose wallet address differs from the configured
source address. -/
def wBadWallet : L2World := ⟨addrB, 100, 0, some 10, 1⟩

/-- l1deposit oracle: matching wallet, ample L1 balance, and a cross-layer
result that is not complete. -/
def wDepRich : DepositWorld := ⟨addrA, 10 ^ 20, false⟩

/-- l1deposit oracle: matching wallet and a zero L1 balance. -/
def wDepPoor : DepositWorld := ⟨addrA, 0, false⟩

/-- l1tostylus oracle: matching wallet, ample L1 balance, messages found,
message not redeemed. -/
def wSty : StylusWorld := ⟨addrA, 5, 2, 3, 10 ^ 20, false, false⟩

/-- callstylus oracle: matching wallet. -/
def wCall : CallWorld := ⟨addrA, 0⟩

/-- l1deposit oracle whose wallet address differs from the source. -/
def wDepBad : DepositWorld := ⟨addrB, 0, false⟩

/-- l1tostylus oracle whose wallet address differs from the source. -/
def wStyBad : StylusWorld := ⟨addrB, 5, 2, 3, 0, false, false⟩

/-- callstylus oracle whose wallet address differs from the source. -/
def wCallBad : CallWorld := ⟨addrB, 0⟩

/-! # Helper lemmas -/

theorem takeWhile_append_all {α : Type} (p : α → Bool) (l r : List α) (x : α)
    (hl : ∀ c ∈ l, p c = true) (hx : p x = false) :
    (l ++ x :: r).takeWhile p = l := by
  induction l with
  | nil => simp [List.takeWhile_cons, hx]
  | cons a as ih =>
    have ha : p a = true := hl a (by simp)
    simp [List.takeWhile_cons, ha, ih (fun c hc => hl c (by simp [hc]))]

theorem dropWhile_append_all {α : Type} (p : α → Bool) (l r : List α) (x : α)
    (hl : ∀ c ∈ l, p c = true) (hx : p x = false) :
    (l ++ x :: r).dropWhile p = x :: r := by
  induction l with
  | nil => simp [List.dropWhile_cons, hx]
  | cons a as ih =>
    have ha : p a = true := hl a (by simp)
    simp [List.dropWhile_cons, ha, ih (fun c hc => hl c (by simp [hc]))]

theorem contains_append_cons {α : Type} [BEq α] [LawfulBEq α] (l r : List α) (x : α) :
    (l ++ x :: r).contains x = true := by
  induction l with
  | nil => simp [List.contains_cons]
  | cons a as ih => simp [List.contains_cons, ih]

theorem contains_eq_false_of_not_mem {α : Type} [BEq α] [LawfulBEq α]
    (l : List α) (x : α) (h : x ∉ l) : l.contains x = false := by
  induction l with
  | nil => simp
  | cons a as ih =>
    have hxa : (x == a) = false := by
      rw [beq_eq_false_iff_ne]
      intro e
      exact h (by simp [e])
    simp only [List.contains_cons, hxa, Bool.false_or]
    exact ih (fun hm => h (List.mem_cons_of_mem _ hm))

theorem jsSplit_ne_nil (sep : Char) (s : Str) : jsSplit sep s ≠ [] := by
  cases s with
  | nil => simp [jsSplit]
  | cons c cs =>
    simp only [jsSplit]
    cases h : jsSplit sep cs with
    | nil => simp
    | cons a t => by_cases hc : c = sep <;> simp [hc]

theorem jsSplit_not_mem (sep : Char) (p : Str) (hp : sep ∉ p) : jsSplit sep p = [p] := by
  induction p with
  | nil => simp [jsSplit]
  | cons a as ih =>
    have ha : ¬(a = sep) := by
      intro e
      exact hp (by simp [e])
    rw [jsSplit, ih (fun h => hp (List.mem_cons_of_mem _ h))]
    simp [ha]

theorem jsSplit_append_sep (sep : Char) (p rest : Str) (hp : sep ∉ p) :
    jsSplit sep (p ++ sep :: rest) = p :: jsSplit sep rest := by
  induction p with
  | nil =>
    simp only [List.nil_append, jsSplit]
    cases h : jsSplit sep rest with
    | nil => exact absurd h (jsSplit_ne_nil sep rest)
    | cons a t => simp
  | cons a as ih =>
    have ha : ¬(a = sep) := by
      intro e
      exact hp (by simp [e])
    have ih2 := ih (fun h => hp (List.mem_cons_of_mem _ h))
    rw [List.cons_append, jsSplit, ih2]
    simp [ha]

theorem mem_joinSep (sep : Char) (parts : List Str) (c : Char)
    (h : c ∈ joinSep sep parts) : c = sep ∨ ∃ p ∈ parts, c ∈ p := by
  induction parts with
  | nil => simp [joinSep] at h
  | cons p ps ih =>
    cases ps with
    | nil =>
      simp only [joinSep] at h
      exact Or.inr ⟨p, by simp, h⟩
    | cons q qs =>
      have hj : joinSep sep (p :: q :: qs) = p ++ sep :: joinSep sep (q :: qs) := rfl
      rw [hj] at h
      rcases List.mem_append.mp h with h1 | h2
      · exact Or.inr ⟨p, by simp, h1⟩
      · rcases List.mem_cons.mp h2 with rfl | h3
        · exact Or.inl rfl
        · rcases ih h3 with h4 | ⟨p2, hp2, hc2⟩
          · exact Or.inl h4
          · exact Or.inr ⟨p2, List.mem_cons_of_mem _ hp2, hc2⟩

theorem jsSplit_joinSep (sep : Char) (parts : List Str) (hne : parts ≠ [])
    (h : ∀ p ∈ parts, sep ∉ p) : jsSplit sep (joinSep sep parts) = parts := by
  induction parts with
  | nil => exact absurd rfl hne
  | cons p ps ih =>
    cases ps with
    | nil => simp [joinSep, jsSplit_not_mem sep p (h p (by simp))]
    | cons q qs =>
      have hj : joinSep sep (p :: q :: qs) = p ++ sep :: joinSep sep (q :: qs) := rfl
      rw [hj, jsSplit_append_sep sep p _ (h p (by simp)),
        ih (by simp) (fun a ha => h a (List.mem_cons_of_mem _ ha))]

theorem map_fix {α : Type} (f : α → α) (l : List α) (h : ∀ a ∈ l, f a = a) :
    l.map f = l := by
  induction l with
  | nil => rfl
  | cons a as ih =>
    rw [List.map_cons, h a (by simp), ih (fun b hb => h b (List.mem_cons_of_mem _ hb))]

theorem filter_all_true {α : Type} (p : α → Bool) (l : List α)
    (h : ∀ a ∈ l, p a = true) : l.filter p = l := by
  induction l with
  | nil => rfl
  | cons a as ih =>
    rw [List.filter_cons, if_pos (h a (by simp)),
      ih (fun b hb => h b (List.mem_cons_of_mem _ hb))]

theorem getLastD_default_irrel {α : Type} (l : List α) (h : l ≠ []) (d d' : α) :
    l.getLastD d = l.getLastD d' := by
  cases l with
  | nil => exact absurd rfl h
  | cons a as => rw [List.getLastD_cons, List.getLastD_cons]

theorem resolveArg_fst_of_not_address (st : Str × Str) (a : Str)
    (h : isAddress a = false) : (resolveArg st a).1 = st.1 := by
  rw [resolveArg, if_neg (by simp [h])]
  by_cases hn : jsParseFloatNotNaN a = true
  · rw [if_pos hn]
  · rw [if_neg hn]

theorem resolveArg_snd_of_not_numeric (st : Str × Str) (a : Str)
    (h : numericTok a = false) : (resolveArg st a).2 = st.2 := by
  rw [resolveArg]
  by_cases ha : isAddress a = true
  · rw [if_pos ha]
  · rw [if_neg ha]
    rw [numericTok, Bool.and_eq_false_iff] at h
    rcases h with h | h
    · rw [Bool.not_eq_false'] at h
      exact absurd h ha
    · rw [if_neg (by simp [h])]

theorem resolve_foldl_fst (args : List Str) : ∀ st : Str × Str,
    (args.foldl resolveArg st).1 = (args.filter isAddress).getLastD st.1 := by
  induction args with
  | nil => intro st; rfl
  | cons a as ih =>
    intro st
    rw [List.foldl_cons, List.filter_cons, ih]
    by_cases ha : isAddress a = true
    · rw [if_pos (by simp [ha]), List.getLastD_cons]
      have : (resolveArg st a).1 = a := by rw [resolveArg, if_pos (by simp [ha])]
      rw [this]
    · rw [if_neg (by simp [Bool.not_eq_true] at ha ⊢; exact ha)]
      rw [resolveArg_fst_of_not_address st a (Bool.not_eq_true _ |>.mp ha)]

theorem resolve_foldl_snd (args : List Str) : ∀ st : Str × Str,
    (args.foldl resolveArg st).2 = (args.filter numericTok).getLastD st.2 := by
  induction args with
  | nil => intro st; rfl
  | cons a as ih =>
    intro st
    rw [List.foldl_cons, List.filter_cons, ih]
    by_cases hn : numericTok a = true
    · have hn2 := hn
      rw [numericTok, Bool.and_eq_true_iff] at hn2
      have ha : isAddress a = false := by
        rcases hn2 with ⟨h1, _⟩
        simp only [Bool.not_eq_true'] at h1
        exact h1
      have hf : jsParseFloatNotNaN a = true := hn2.2
      rw [if_pos (by simp [hn]), List.getLastD_cons]
      have : (resolveArg st a).2 = a := by
        rw [resolveArg, if_neg (by simp [ha]), if_pos hf]
      rw [this]
    · rw [if_neg (by simp [Bool.not_eq_true] at hn ⊢; exact hn)]
      rw [resolveArg_snd_of_not_numeric st a (Bool.not_eq_true _ |>.mp hn)]

theorem bnDiv_nonpos_of_nonpos (a : Int) (h : a ≤ 0) : bnDiv a 10 ≤ 0 := by
  have h2 : 0 ≤ -a := by omega
  have h3 : 0 ≤ (-a).tdiv 10 := Int.tdiv_nonneg h2 (by norm_num)
  have h4 : (-a).tdiv 10 = -(a.tdiv 10) := Int.neg_tdiv a 10
  rw [bnDiv]
  omega

/-! # Validation of the embedded checksum against a published EIP-55
vector -/

example : getChecksumAddress (str "0x5aaeb6053f3e94c9b9a09f33669435e7ef1beaed") =
    some (str "0x5aAeb6053F3E94C9b9A09f33669435E7Ef1BeAed") := by decide

/-! # Claim theorems -/

/-- C1.  The l2transfer funds guard is claimed to abort, before
`sendTransaction`, exactly when the source balance in wei is below
`amountWei` plus the estimated fee.  The code at l2transfer.ts line 126
compares the two `BigNumber` objects with the JavaScript `<` operator,
which compares their decimal string representations: with balance 9 wei
and a required total of 30 wei the guard does not fire (the string `"9"`
is not below `"30"`) and the flow reaches `sendTransaction`; with balance
100 wei and a required total of 20 wei the guard fires (the string
`"100"` is below `"20"`) and the flow exits 1 although the funds
suffice. -/
theorem c1_funds_guard_compares_strings :
    parseEther (str "0.00000000000000002") = some 20 ∧
      wLow.sourceBalance = 9 ∧ (9 : Int) < 20 + 1 * 10 ∧
      jsStrLt (intToStr 9) (intToStr 30) = false ∧
      transferTrace envL2 wLow [str "0.00000000000000002"] =
        [Ev.getNetwork, Ev.getBalance, Ev.getBalance, Ev.getFeeData, Ev.estimateGas,
          Ev.sendTx, Ev.waitMined, Ev.getBalance, Ev.getBalance, Ev.done] ∧
      exitCode (transferTrace envL2 wLow [str "0.00000000000000002"]) = 0 ∧
      wHigh.sourceBalance = 100 ∧ (10 + 1 * 10 : Int) ≤ 100 ∧
      jsStrLt (intToStr 100) (intToStr 20) = true ∧
      transferTrace envL2 wHigh [str "0.00000000000000001"] =
        [Ev.getNetwork, Ev.getBalance, Ev.getBalance, Ev.getFeeData, Ev.estimateGas,
          Ev.exit 1] ∧
      exitCode (transferTrace envL2 wHigh [str "0.00000000000000001"]) = 1 := by
  decide

/-- C2, counterexample.  A deposit run whose cross-layer result is not
complete still submits, logs the failure, and returns normally: the
process exit code is 0, not non-zero as claimed. -/
theorem c2_counterexample :
    wDepRich.childComplete = false ∧
      Ev.bridgeDeposit ∈ depositTrace envDep wDepRich [] ∧
      exitCode (depositTrace envDep wDepRich []) = 0 := by decide

/-- C3, counterexample.  Invoking l1tostylus with `number()` does exit
non-zero, but two `getNetwork` RPC requests are issued before the
rejection, contradicting the claim that no RPC request precedes it. -/
theorem c3_counterexample :
    exitCode (stylusTrace envDep wSty [str "number()"]) = 1 ∧
      rpcCallsBeforeExit (stylusTrace envDep wSty [str "number()"]) =
        [Ev.getNetwork, Ev.getNetwork] := by decide

/-- C4, counterexample.  A 40-hex-digit string that mixes upper- and
lower-case letters but has a wrong EIP-55 checksum (the published
checksum vector with its first letter upper-cased) is rejected by the
validator, contradicting the claim that any case mixture of 40 hex digits
is accepted without checksum-based rejection. -/
theorem c4_counterexample :
    specAddr40Hex (str "0x5AAeb6053F3E94C9b9A09f33669435E7Ef1BeAed") = true ∧
      isAddress (str "0x5AAeb6053F3E94C9b9A09f33669435E7Ef1BeAed") = false := by decide

/-- C5, counterexample.  `parseFloat("Infinity")` is not NaN, so the code
takes `"Infinity"` as the value token; the claim requires a non-finite
token to leave the value amount at 0.  The later wei conversion of this
token throws. -/
theorem c5_counterexample :
    resolveValueToken [str "increment()", str "Infinity"] = str "Infinity" ∧
      str "Infinity" ≠ str "0" ∧ parseEther (str "Infinity") = none := by decide

/-- C5, amended.  The second CLI token is taken as the value amount
exactly when its `parseFloat` is not NaN, with no finiteness test;
otherwise, and when fewer than two tokens are given, the value amount is
`"0"`.  The two examples of the claim hold as stated. -/
theorem c5_value_token_not_nan :
    (∀ a t rest, resolveValueToken (a :: t :: rest) =
        if jsParseFloatNotNaN t then t else str "0") ∧
      (∀ a, resolveValueToken [a] = str "0") ∧
      resolveValueToken [] = str "0" ∧
      resolveValueToken [str "increment()", str "0.1"] = str "0.1" ∧
      resolveValueToken [str "increment()"] = str "0" := by
  refine ⟨fun a t rest => ?_, fun a => ?_, by decide, by decide, by decide⟩
  · rw [resolveValueToken, if_pos (by simp only [List.length_cons]; omega)]
    simp only [List.getD_cons_succ, List.getD_cons_zero]
  · rw [resolveValueToken, if_neg (by simp)]

/-- C6, counterexample.  l1deposit with amount `-5` converts it to a
negative wei value, passes the funds guard even with a zero balance (1.2
times a negative amount is negative), and forwards the negative amount to
the bridge deposit call, exiting 0; the claim requires a non-zero exit
with no submission. -/
theorem c6_counterexample :
    parseEther (str "-5") = some (-5000000000000000000) ∧
      Ev.bridgeDeposit ∈ depositTrace envDep wDepPoor [str "-5"] ∧
      exitCode (depositTrace envDep wDepPoor [str "-5"]) = 0 := by decide

/-- C9.  l2transfer argument resolution is order-independent for a pair
of one address-shaped token and one numeric (non-address) token: in
either order, the target resolves to the address-shaped token and the
amount to the numeric token. -/
theorem c9_transfer_args_order_independent (defT A N : Str)
    (hA : isAddress A = true) (hN : isAddress N = false)
    (hNn : jsParseFloatNotNaN N = true) :
    resolveTransferArgs defT [A, N] = (A, N) ∧
      resolveTransferArgs defT [N, A] = (A, N) := by
  constructor
  · rw [resolveTransferArgs]
    simp [resolveArg, hA, hN, hNn]
  · rw [resolveTransferArgs]
    simp [resolveArg, hA, hN, hNn]

/-- C9, witness. -/
theorem c9_witness :
    isAddress addrB = true ∧ isAddress (str "0.5") = false ∧
      jsParseFloatNotNaN (str "0.5") = true ∧
      (resolveTransferArgs addrA [addrB, str "0.5"] = (addrB, str "0.5") ∧
        resolveTransferArgs addrA [str "0.5", addrB] = (addrB, str "0.5")) :=
  ⟨by decide, by decide, by decide,
    c9_transfer_args_order_independent addrA addrB (str "0.5")
      (by decide) (by decide) (by decide)⟩

/-- C10.  In l2transfer argument resolution, the last address-shaped
token wins the target, the last numeric token (a token taking the amount
branch: non-address with non-NaN `parseFloat`) wins the amount, and a
token that is neither address-shaped nor numeric leaves the resolution
state unchanged. -/
theorem c10_last_token_wins (defT : Str) (args : List Str) :
    (2 ≤ (args.filter isAddress).length →
      (resolveTransferArgs defT args).1 = (args.filter isAddress).getLastD (str "")) ∧
      (2 ≤ (args.filter numericTok).length →
        (resolveTransferArgs defT args).2 =
          (args.filter numericTok).getLastD (str "0.01")) ∧
      (∀ st junk, isAddress junk = false → jsParseFloatNotNaN junk = false →
        resolveArg st junk = st) := by
  refine ⟨fun h => ?_, fun h => ?_, fun st junk h1 h2 => ?_⟩
  · rw [resolveTransferArgs, resolve_foldl_fst]
    exact getLastD_default_irrel _ (by intro e; rw [e] at h; simp at h) _ _
  · rw [resolveTransferArgs, resolve_foldl_snd]
  · rw [resolveArg, if_neg (by simp [h1]), if_neg (by simp [h2])]

/-- C10, witness. -/
theorem c10_witness :
    (resolveTransferArgs (str "") [addrA, addrB, str "1", str "2"]).1 =
        ([addrA, addrB, str "1", str "2"].filter isAddress).getLastD (str "") ∧
      (resolveTransferArgs (str "") [addrA, addrB, str "1", str "2"]).2 =
        ([addrA, addrB, str "1", str "2"].filter numericTok).getLastD (str "0.01") ∧
      resolveArg (addrA, str "7") (str "zz") = (addrA, str "7") :=
  ⟨(c10_last_token_wins (str "") [addrA, addrB, str "1", str "2"]).1 (by decide),
    (c10_last_token_wins (str "") [addrA, addrB, str "1", str "2"]).2.1 (by decide),
    (c10_last_token_wins (str "") [addrA, addrB, str "1", str "2"]).2.2
      (addrA, str "7") (str "zz") (by decide) (by decide)⟩

/-- C7.  Parser round trip.  For a well-formed call token built from a
name (free of `(`) and arguments (each nonempty, trimmed, and free of
commas and parentheses), the parser returns exactly that name and those
arguments, ignoring anything after the closing parenthesis such as a
return-type suffix group; `name()` yields no arguments, and a bare token
with no parenthesis is all name with no arguments. -/
theorem c7_parser_round_trip (name extra : Str) (args : List Str)
    (hname : '(' ∉ name)
    (hargs : ∀ a ∈ args, a ≠ [] ∧ ',' ∉ a ∧ '(' ∉ a ∧ ')' ∉ a ∧ jsTrim a = a) :
    parseFunctionCall (name ++ '(' :: (joinSep ',' args ++ ')' :: extra)) = (name, args) ∧
      parseFunctionCall (name ++ str "()") = (name, []) ∧
      parseFunctionCall name = (name, []) := by
  have hn1 : ∀ c ∈ name, (fun c => !(c = '(')) c = true := by
    intro c hc
    have : ¬(c = '(') := fun e => hname (e ▸ hc)
    simp [this]
  have hjmem : ∀ c ∈ joinSep ',' args, (fun c => !(c = ')')) c = true := by
    intro c hc
    rcases mem_joinSep ',' args c hc with rfl | ⟨p, hp, hcp⟩
    · decide
    · have : ¬(c = ')') := fun e => (hargs p hp).2.2.2.1 (e ▸ hcp)
      simp [this]
  have hc1 : (name ++ '(' :: (joinSep ',' args ++ ')' :: extra)).contains '(' = true :=
    contains_append_cons name _ '('
  have htw : (name ++ '(' :: (joinSep ',' args ++ ')' :: extra)).takeWhile
      (fun c => !(c = '(')) = name :=
    takeWhile_append_all _ name _ '(' hn1 (by decide)
  have hdw : (name ++ '(' :: (joinSep ',' args ++ ')' :: extra)).dropWhile
      (fun c => !(c = '(')) = '(' :: (joinSep ',' args ++ ')' :: extra) :=
    dropWhile_append_all _ name _ '(' hn1 (by decide)
  have hg : firstParenGroup (name ++ '(' :: (joinSep ',' args ++ ')' :: extra)) =
      some (joinSep ',' args) := by
    simp only [firstParenGroup, hdw, List.drop_succ_cons, List.drop_zero]
    rw [if_pos (contains_append_cons (joinSep ',' args) extra ')'),
      takeWhile_append_all _ (joinSep ',' args) extra ')' hjmem (by decide)]
  refine ⟨?_, ?_, ?_⟩
  · simp only [parseFunctionCall, hc1, if_true, hg, htw]
    cases args with
    | nil => simp [joinSep]
    | cons a as =>
      have hjne : joinSep ',' (a :: as) ≠ [] := by
        cases as with
        | nil =>
          simp only [joinSep]
          exact (hargs a (by simp)).1
        | cons b bs => simp [joinSep]
      rw [if_neg hjne,
        jsSplit_joinSep ',' (a :: as) (by simp) (fun p hp => (hargs p hp).2.1),
        map_fix jsTrim (a :: as) (fun p hp => (hargs p hp).2.2.2.2),
        filter_all_true _ (a :: as) (fun p hp => by simp [(hargs p hp).1])]
  · have he : name ++ str "()" = name ++ '(' :: (joinSep ',' ([] : List Str) ++ ')' :: []) := rfl
    rw [he]
    have hc2 : (name ++ '(' :: (joinSep ',' ([] : List Str) ++ ')' :: [])).contains '(' = true :=
      contains_append_cons name _ '('
    have htw2 : (name ++ '(' :: (joinSep ',' ([] : List Str) ++ ')' :: [])).takeWhile
        (fun c => !(c = '(')) = name :=
      takeWhile_append_all _ name _ '(' hn1 (by decide)
    have hdw2 : (name ++ '(' :: (joinSep ',' ([] : List Str) ++ ')' :: [])).dropWhile
        (fun c => !(c = '(')) = '(' :: (joinSep ',' ([] : List Str) ++ ')' :: []) :=
      dropWhile_append_all _ name _ '(' hn1 (by decide)
    have hg2 : firstParenGroup (name ++ '(' :: (joinSep ',' ([] : List Str) ++ ')' :: [])) =
        some (joinSep ',' ([] : List Str)) := by
      simp only [firstParenGroup, hdw2, List.drop_succ_cons, List.drop_zero]
      rw [if_pos (contains_append_cons (joinSep ',' ([] : List Str)) [] ')'),
        takeWhile_append_all _ (joinSep ',' ([] : List Str)) [] ')'
          (by intro c hc; simp [joinSep] at hc) (by decide)]
    simp only [parseFunctionCall, hc2, if_true, hg2, htw2]
    simp [joinSep]
  · rw [parseFunctionCall, if_neg (by simpa using hname)]

/-- C7, witness. -/
theorem c7_witness :
    str "setNumber(123)(uint256)" =
        str "setNumber" ++ '(' :: (joinSep ',' [str "123"] ++ ')' :: str "(uint256)") ∧
      ('(' ∉ str "setNumber") ∧
      (∀ a ∈ [str "123"], a ≠ [] ∧ ',' ∉ a ∧ '(' ∉ a ∧ ')' ∉ a ∧ jsTrim a = a) ∧
      (parseFunctionCall
          (str "setNumber" ++ '(' :: (joinSep ',' [str "123"] ++ ')' :: str "(uint256)")) =
            (str "setNumber", [str "123"]) ∧
        parseFunctionCall (str "setNumber" ++ str "()") = (str "setNumber", []) ∧
        parseFunctionCall (str "setNumber") = (str "setNumber", [])) :=
  ⟨by decide, by decide, by decide,
    c7_parser_round_trip (str "setNumber") (str "(uint256)") [str "123"]
      (by decide) (by decide)⟩

/-- C8.  Identity check.  In each signing flow, when the wallet address
derived from the credential differs case-insensitively from the
configured source address, the flow exits 1 before any transaction or
bridge submission; when they agree, the check passes and the flow
proceeds (to its first network call, and in callstylus all the way to the
transaction). -/
theorem c8_identity_check_before_send :
    (∀ env w args, env.sourceAddress ≠ [] → env.sourcePrivateKey ≠ [] →
      (resolveTransferArgs env.targetAddress args).1 ≠ [] →
      isAddress env.sourceAddress = true →
      isAddress (resolveTransferArgs env.targetAddress args).1 = true →
      asciiLower w.walletAddr ≠ asciiLower env.sourceAddress →
      transferTrace env w args = [Ev.exit 1] ∧
        Ev.sendTx ∉ transferTrace env w args) ∧
    (∀ env w args, env.sourceAddress ≠ [] → env.sourcePrivateKey ≠ [] →
      (resolveTransferArgs env.targetAddress args).1 ≠ [] →
      isAddress env.sourceAddress = true →
      isAddress (resolveTransferArgs env.targetAddress args).1 = true →
      asciiLower w.walletAddr = asciiLower env.sourceAddress →
      (transferTrace env w args).head? = some Ev.getNetwork) ∧
    (∀ env w args, env.l1RpcUrl ≠ [] → env.sourceAddress ≠ [] →
      env.sourcePrivateKey ≠ [] → isAddress env.sourceAddress = true →
      isAddress (if env.targetAddress = [] then env.sourceAddress
        else env.targetAddress) = true →
      asciiLower w.walletAddr ≠ asciiLower env.sourceAddress →
      depositTrace env w args = [Ev.exit 1] ∧
        Ev.bridgeDeposit ∉ depositTrace env w args) ∧
    (∀ env w args, env.l1RpcUrl ≠ [] → env.sourceAddress ≠ [] →
      env.sourcePrivateKey ≠ [] → isAddress env.sourceAddress = true →
      isAddress (if env.targetAddress = [] then env.sourceAddress
        else env.targetAddress) = true →
      asciiLower w.walletAddr = asciiLower env.sourceAddress →
      (depositTrace env w args).head? = some Ev.getNetwork) ∧
    (∀ env w args, env.l1RpcUrl ≠ [] → env.sourceAddress ≠ [] →
      env.sourcePrivateKey ≠ [] → env.counterContractAddress ≠ [] →
      isAddress env.sourceAddress = true →
      isAddress env.counterContractAddress = true → args ≠ [] →
      asciiLower w.walletAddr ≠ asciiLower env.sourceAddress →
      stylusTrace env w args = [Ev.exit 1] ∧
        Ev.sendTx ∉ stylusTrace env w args) ∧
    (∀ env w args, env.l1RpcUrl ≠ [] → env.sourceAddress ≠ [] →
      env.sourcePrivateKey ≠ [] → env.counterContractAddress ≠ [] →
      isAddress env.sourceAddress = true →
      isAddress env.counterContractAddress = true → args ≠ [] →
      asciiLower w.walletAddr = asciiLower env.sourceAddress →
      (stylusTrace env w args).head? = some Ev.getNetwork) ∧
    (∀ env w args (v : Int), env.sourceAddress ≠ [] →
      env.counterContractAddress ≠ [] → isAddress env.sourceAddress = true →
      isAddress env.counterContractAddress = true → args ≠ [] →
      parseEtherValue (resolveValueToken args) = some v →
      (parseFunctionCall (args.headD [])).1 ≠ str "number" →
      env.sourcePrivateKey ≠ [] →
      asciiLower w.walletAddr ≠ asciiLower env.sourceAddress →
      callTrace env w args = [Ev.getNetwork, Ev.getBalance, Ev.exit 1] ∧
        Ev.sendTx ∉ callTrace env w args) ∧
    (∀ env w args (v : Int), env.sourceAddress ≠ [] →
      env.counterContractAddress ≠ [] → isAddress env.sourceAddress = true →
      isAddress env.counterContractAddress = true → args ≠ [] →
      parseEtherValue (resolveValueToken args) = some v →
      (parseFunctionCall (args.headD [])).1 ≠ str "number" →
      env.sourcePrivateKey ≠ [] →
      asciiLower w.walletAddr = asciiLower env.sourceAddress →
      encodeOk (parseFunctionCall (args.headD [])).1
        (parseFunctionCall (args.headD [])).2 = true →
      Ev.sendTx ∈ callTrace env w args) := by
  refine ⟨?_, ?_, ?_, ?_, ?_, ?_, ?_, ?_⟩
  · intro env w args h1 h2 h3 h4 h5 hm
    have ht : transferTrace env w args = [Ev.exit 1] := by
      simp [transferTrace, transferTry, h1, h2, h3, h4, h5, hm]
    exact ⟨ht, by rw [ht]; decide⟩
  · intro env w args h1 h2 h3 h4 h5 hm
    simp [transferTrace, transferTry, h1, h2, h3, h4, h5, hm]
  · intro env w args h1 h2 h3 h4 h5 hm
    have ht : depositTrace env w args = [Ev.exit 1] := by
      simp [depositTrace, depositTry, h1, h2, h3, h4, h5, hm]
    exact ⟨ht, by rw [ht]; decide⟩
  · intro env w args h1 h2 h3 h4 h5 hm
    simp [depositTrace, depositTry, h1, h2, h3, h4, h5, hm]
  · intro env w args h1 h2 h3 h4 h5 h6 h7 hm
    have ht : stylusTrace env w args = [Ev.exit 1] := by
      simp [stylusTrace, stylusTry, h1, h2, h3, h4, h5, h6, h7, hm]
    exact ⟨ht, by rw [ht]; decide⟩
  · intro env w args h1 h2 h3 h4 h5 h6 h7 hm
    simp [stylusTrace, stylusTry, h1, h2, h3, h4, h5, h6, h7, hm]
  · intro env w args v h1 h2 h3 h4 h5 hv hname h6 hm
    simp only [List.headD_eq_head?_getD] at hname
    have ht : callTrace env w args = [Ev.getNetwork, Ev.getBalance, Ev.exit 1] := by
      simp [callTrace, callTry, h1, h2, h3, h4, h5, hv, hname, h6, hm]
    exact ⟨ht, by rw [ht]; decide⟩
  · intro env w args v h1 h2 h3 h4 h5 hv hname h6 hm henc
    simp only [List.headD_eq_head?_getD] at hname henc
    have ht : callTrace env w args =
        [Ev.getNetwork, Ev.getBalance, Ev.sendTx, Ev.waitMined, Ev.viewCall,
          Ev.getBalance, Ev.done] := by
      simp [callTrace, callTry, h1, h2, h3, h4, h5, hv, hname, h6, hm, henc]
    rw [ht]
    decide

/-- C8, witness. -/
theorem c8_witness :
    (transferTrace envL2 wBadWallet [] = [Ev.exit 1] ∧
        Ev.sendTx ∉ transferTrace envL2 wBadWallet []) ∧
      (transferTrace envL2 wLow []).head? = some Ev.getNetwork ∧
      (depositTrace envDep wDepBad [] = [Ev.exit 1] ∧
        Ev.bridgeDeposit ∉ depositTrace envDep wDepBad []) ∧
      (depositTrace envDep wDepRich []).head? = some Ev.getNetwork ∧
      (stylusTrace envDep wStyBad [str "increment()"] = [Ev.exit 1] ∧
        Ev.sendTx ∉ stylusTrace envDep wStyBad [str "increment()"]) ∧
      (stylusTrace envDep wSty [str "increment()"]).head? = some Ev.getNetwork ∧
      (callTrace envDep wCallBad [str "increment()"] =
          [Ev.getNetwork, Ev.getBalance, Ev.exit 1] ∧
        Ev.sendTx ∉ callTrace envDep wCallBad [str "increment()"]) ∧
      Ev.sendTx ∈ callTrace envDep wCall [str "increment()"] :=
  ⟨c8_identity_check_before_send.1 envL2 wBadWallet []
      (by decide) (by decide) (by decide) (by decide) (by decide) (by decide),
    c8_identity_check_before_send.2.1 envL2 wLow []
      (by decide) (by decide) (by decide) (by decide) (by decide) (by decide),
    c8_identity_check_before_send.2.2.1 envDep wDepBad []
      (by decide) (by decide) (by decide) (by decide) (by decide) (by decide),
    c8_identity_check_before_send.2.2.2.1 envDep wDepRich []
      (by decide) (by decide) (by decide) (by decide) (by decide) (by decide),
    c8_identity_check_before_send.2.2.2.2.1 envDep wStyBad [str "increment()"]
      (by decide) (by decide) (by decide) (by decide) (by decide) (by decide)
      (by decide) (by decide),
    c8_identity_check_before_send.2.2.2.2.2.1 envDep wSty [str "increment()"]
      (by decide) (by decide) (by decide) (by decide) (by decide) (by decide)
      (by decide) (by decide),
    c8_identity_check_before_send.2.2.2.2.2.2.1 envDep wCallBad [str "increment()"] 0
      (by decide) (by decide) (by decide) (by decide) (by decide) (by decide)
      (by decide) (by decide) (by decide),
    c8_identity_check_before_send.2.2.2.2.2.2.2 envDep wCall [str "increment()"] 0
      (by decide) (by decide) (by decide) (by decide) (by decide) (by decide)
      (by decide) (by decide) (by decide) (by decide)⟩

/-- C3, amended.  For the function name `number`, l1tostylus exits 1
before any balance read, estimation or transaction, but only after
issuing the two `getNetwork` RPC requests: the rejection is not free of
network calls. -/
theorem c3_view_rejection_after_get_network (env : Env) (w : StylusWorld)
    (args : List Str) (h1 : env.l1RpcUrl ≠ []) (h2 : env.sourceAddress ≠ [])
    (h3 : env.sourcePrivateKey ≠ []) (h4 : env.counterContractAddress ≠ [])
    (h5 : isAddress env.sourceAddress = true)
    (h6 : isAddress env.counterContractAddress = true) (h7 : args ≠ [])
    (hid : asciiLower w.walletAddr = asciiLower env.sourceAddress)
    (hname : (parseFunctionCall (args.headD [])).1 = str "number") :
    stylusTrace env w args = [Ev.getNetwork, Ev.getNetwork, Ev.exit 1] ∧
      exitCode (stylusTrace env w args) = 1 ∧
      rpcCallsBeforeExit (stylusTrace env w args) = [Ev.getNetwork, Ev.getNetwork] ∧
      Ev.sendTx ∉ stylusTrace env w args ∧
      Ev.getBalance ∉ stylusTrace env w args := by
  simp only [List.headD_eq_head?_getD] at hname
  have ht : stylusTrace env w args = [Ev.getNetwork, Ev.getNetwork, Ev.exit 1] := by
    simp [stylusTrace, stylusTry, h1, h2, h3, h4, h5, h6, h7, hid, hname]
  exact ⟨ht, by rw [ht]; decide, by rw [ht]; decide, by rw [ht]; decide,
    by rw [ht]; decide⟩

/-- C3, amended, witness. -/
theorem c3_witness :
    stylusTrace envDep wSty [str "number()"] = [Ev.getNetwork, Ev.getNetwork, Ev.exit 1] ∧
      exitCode (stylusTrace envDep wSty [str "number()"]) = 1 ∧
      rpcCallsBeforeExit (stylusTrace envDep wSty [str "number()"]) =
        [Ev.getNetwork, Ev.getNetwork] ∧
      Ev.sendTx ∉ stylusTrace envDep wSty [str "number()"] ∧
      Ev.getBalance ∉ stylusTrace envDep wSty [str "number()"] :=
  c3_view_rejection_after_get_network envDep wSty [str "number()"]
    (by decide) (by decide) (by decide) (by decide) (by decide) (by decide)
    (by decide) (by decide) (by decide)

/-- C2, amended.  Exit codes: failures the flows check (here, the funds
guard) exit 1 before submission, but a cross-layer result that reaches a
failed (non-complete, non-redeemed) terminal state after submission is
only logged: both l1deposit and l1tostylus then re-read balances, return
normally and the process exits 0. -/
theorem c2_cross_layer_failure_exits_zero :
    (∀ env w args (aw : Int), env.l1RpcUrl ≠ [] → env.sourceAddress ≠ [] →
      env.sourcePrivateKey ≠ [] → isAddress env.sourceAddress = true →
      isAddress (if env.targetAddress = [] then env.sourceAddress
        else env.targetAddress) = true →
      asciiLower w.walletAddr = asciiLower env.sourceAddress →
      parseEther (args.headD (str "0.01")) = some aw →
      ¬(w.l1Balance < bnDiv (aw * 12) 10) → w.childComplete = false →
      exitCode (depositTrace env w args) = 0 ∧
        Ev.bridgeDeposit ∈ depositTrace env w args) ∧
    (∀ env w args (vw : Int), env.l1RpcUrl ≠ [] → env.sourceAddress ≠ [] →
      env.sourcePrivateKey ≠ [] → env.counterContractAddress ≠ [] →
      isAddress env.sourceAddress = true →
      isAddress env.counterContractAddress = true → args ≠ [] →
      asciiLower w.walletAddr = asciiLower env.sourceAddress →
      (parseFunctionCall (args.headD [])).1 ≠ str "number" →
      encodeOk (parseFunctionCall (args.headD [])).1
        (parseFunctionCall (args.headD [])).2 = true →
      parseEtherValue (resolveValueToken args) = some vw →
      ¬(w.l1Balance < w.maxSubmissionCost) → w.messagesEmpty = false →
      w.msgRedeemed = false →
      exitCode (stylusTrace env w args) = 0 ∧
        Ev.sendTx ∈ stylusTrace env w args) ∧
    (∀ env w args (aw : Int), env.l1RpcUrl ≠ [] → env.sourceAddress ≠ [] →
      env.sourcePrivateKey ≠ [] → isAddress env.sourceAddress = true →
      isAddress (if env.targetAddress = [] then env.sourceAddress
        else env.targetAddress) = true →
      asciiLower w.walletAddr = asciiLower env.sourceAddress →
      parseEther (args.headD (str "0.01")) = some aw →
      w.l1Balance < bnDiv (aw * 12) 10 →
      exitCode (depositTrace env w args) = 1 ∧
        Ev.bridgeDeposit ∉ depositTrace env w args) := by
  refine ⟨?_, ?_, ?_⟩
  · intro env w args aw h1 h2 h3 h4 h5 hid hpe hg hcc
    simp only [List.headD_eq_head?_getD] at hpe
    have ht : depositTrace env w args =
        [Ev.getNetwork, Ev.getNetwork, Ev.getBalance, Ev.getBalance,
          Ev.bridgeGetNetwork, Ev.getBalance, Ev.bridgeDeposit, Ev.waitMined,
          Ev.waitCrossLayer, Ev.getBalance, Ev.getBalance, Ev.done] := by
      simp [depositTrace, depositTry, h1, h2, h3, h4, h5, hid, hpe, hg]
    exact ⟨by rw [ht]; decide, by rw [ht]; decide⟩
  · intro env w args vw h1 h2 h3 h4 h5 h6 h7 hid hname henc hv hg hmsg hred
    simp only [List.headD_eq_head?_getD] at hname henc
    have ht : stylusTrace env w args =
        [Ev.getNetwork, Ev.getNetwork, Ev.getBalance, Ev.getBalance,
          Ev.bridgeGetNetwork, Ev.getGasPrice, Ev.bridgeEstimate, Ev.getBalance,
          Ev.sendTx, Ev.waitMined, Ev.getMessages, Ev.msgStatus,
          Ev.waitCrossLayer, Ev.getBalance, Ev.getBalance, Ev.done] := by
      simp [stylusTrace, stylusTry, h1, h2, h3, h4, h5, h6, h7, hid, hname,
        henc, hv, hg, hmsg, hred]
    exact ⟨by rw [ht]; decide, by rw [ht]; decide⟩
  · intro env w args aw h1 h2 h3 h4 h5 hid hpe hg
    simp only [List.headD_eq_head?_getD] at hpe
    have ht : depositTrace env w args =
        [Ev.getNetwork, Ev.getNetwork, Ev.getBalance, Ev.getBalance,
          Ev.bridgeGetNetwork, Ev.getBalance, Ev.exit 1] := by
      simp [depositTrace, depositTry, h1, h2, h3, h4, h5, hid, hpe, hg]
    exact ⟨by rw [ht]; decide, by rw [ht]; decide⟩

/-- C2, amended, witness. -/
theorem c2_witness :
    (exitCode (depositTrace envDep wDepRich []) = 0 ∧
        Ev.bridgeDeposit ∈ depositTrace envDep wDepRich []) ∧
      (exitCode (stylusTrace envDep wSty [str "increment()"]) = 0 ∧
        Ev.sendTx ∈ stylusTrace envDep wSty [str "increment()"]) ∧
      (exitCode (depositTrace envDep wDepPoor []) = 1 ∧
        Ev.bridgeDeposit ∉ depositTrace envDep wDepPoor []) :=
  ⟨c2_cross_layer_failure_exits_zero.1 envDep wDepRich [] (10 ^ 16)
      (by decide) (by decide) (by decide) (by decide) (by decide) (by decide)
      (by decide) (by decide) (by decide),
    c2_cross_layer_failure_exits_zero.2.1 envDep wSty [str "increment()"] 0
      (by decide) (by decide) (by decide) (by decide) (by decide) (by decide)
      (by decide) (by decide) (by decide) (by decide) (by decide) (by decide)
      (by decide) (by decide),
    c2_cross_layer_failure_exits_zero.2.2 envDep wDepPoor [] (10 ^ 16)
      (by decide) (by decide) (by decide) (by decide) (by decide) (by decide)
      (by decide) (by decide)⟩

/-- C6, amended.  l1deposit takes the amount token with no validation: a
non-numeric amount only fails later, when the wei conversion throws
(exit 1, before any submission); a negative amount is converted to a
negative wei value, passes the funds guard (1.2 times a negative amount
is non-positive, below any non-negative balance), and is forwarded to the
bridge deposit call, after which the flow exits 0. -/
theorem c6_negative_amount_forwarded :
    (∀ env w args, env.l1RpcUrl ≠ [] → env.sourceAddress ≠ [] →
      env.sourcePrivateKey ≠ [] → isAddress env.sourceAddress = true →
      isAddress (if env.targetAddress = [] then env.sourceAddress
        else env.targetAddress) = true →
      asciiLower w.walletAddr = asciiLower env.sourceAddress →
      parseEther (args.headD (str "0.01")) = none →
      exitCode (depositTrace env w args) = 1 ∧
        Ev.bridgeDeposit ∉ depositTrace env w args) ∧
    (∀ env w args (v : Int), env.l1RpcUrl ≠ [] → env.sourceAddress ≠ [] →
      env.sourcePrivateKey ≠ [] → isAddress env.sourceAddress = true →
      isAddress (if env.targetAddress = [] then env.sourceAddress
        else env.targetAddress) = true →
      asciiLower w.walletAddr = asciiLower env.sourceAddress →
      parseEther (args.headD (str "0.01")) = some v → v < 0 →
      0 ≤ w.l1Balance →
      Ev.bridgeDeposit ∈ depositTrace env w args ∧
        exitCode (depositTrace env w args) = 0) := by
  refine ⟨?_, ?_⟩
  · intro env w args h1 h2 h3 h4 h5 hid hpe
    simp only [List.headD_eq_head?_getD] at hpe
    have ht : depositTrace env w args =
        [Ev.getNetwork, Ev.getNetwork, Ev.getBalance, Ev.getBalance,
          Ev.bridgeGetNetwork, Ev.exit 1] := by
      simp [depositTrace, depositTry, h1, h2, h3, h4, h5, hid, hpe]
    exact ⟨by rw [ht]; decide, by rw [ht]; decide⟩
  · intro env w args v h1 h2 h3 h4 h5 hid hpe hneg hbal
    simp only [List.headD_eq_head?_getD] at hpe
    have hg : ¬(w.l1Balance < bnDiv (v * 12) 10) := by
      have h12 : v * 12 ≤ 0 := by omega
      have := bnDiv_nonpos_of_nonpos (v * 12) h12
      omega
    have ht : depositTrace env w args =
        [Ev.getNetwork, Ev.getNetwork, Ev.getBalance, Ev.getBalance,
          Ev.bridgeGetNetwork, Ev.getBalance, Ev.bridgeDeposit, Ev.waitMined,
          Ev.waitCrossLayer, Ev.getBalance, Ev.getBalance, Ev.done] := by
      simp [depositTrace, depositTry, h1, h2, h3, h4, h5, hid, hpe, hg]
    exact ⟨by rw [ht]; decide, by rw [ht]; decide⟩

/-- C6, amended, witness. -/
theorem c6_witness :
    (exitCode (depositTrace envDep wDepPoor [str "abc"]) = 1 ∧
        Ev.bridgeDeposit ∉ depositTrace envDep wDepPoor [str "abc"]) ∧
      (Ev.bridgeDeposit ∈ depositTrace envDep wDepPoor [str "-5"] ∧
        exitCode (depositTrace envDep wDepPoor [str "-5"]) = 0) :=
  ⟨c6_negative_amount_forwarded.1 envDep wDepPoor [str "abc"]
      (by decide) (by decide) (by decide) (by decide) (by decide) (by decide)
      (by decide),
    c6_negative_amount_forwarded.2 envDep wDepPoor [str "-5"]
      (-5000000000000000000) (by decide) (by decide) (by decide) (by decide)
      (by decide) (by decide) (by decide) (by decide) (by decide)⟩

theorem spec_shape_imp_hexShape (s : Str) (h : specAddr40Hex s = true) :
    hexShape40 s = true := by
  by_cases hp : s.take 2 = str "0x"
  · rw [specAddr40Hex, if_pos hp, decide_eq_true_eq] at h
    rw [hexShape40, decide_eq_true_eq]
    exact Or.inl ⟨hp, h.1, h.2⟩
  · rw [specAddr40Hex, if_neg hp, decide_eq_true_eq] at h
    rw [hexShape40, decide_eq_true_eq]
    exact Or.inr h

theorem getChecksumAddress_of_shape (s : Str) (h : hexShape40 s = true) :
    (getChecksumAddress (normalize0x s)).isSome = true := by
  rw [hexShape40, decide_eq_true_eq] at h
  by_cases hp : s.take 2 = str "0x"
  · have hs : s = '0' :: 'x' :: s.drop 2 := by
      calc s = s.take 2 ++ s.drop 2 := (List.take_append_drop 2 s).symm
        _ = '0' :: 'x' :: s.drop 2 := by rw [hp]; rfl
    have hd : (s.drop 2).length = 40 ∧ (s.drop 2).all isHexChar = true := by
      rcases h with ⟨_, h2, h3⟩ | ⟨h1, h2⟩
      · exact ⟨h2, h3⟩
      · have hx : isHexChar 'x' = true :=
          List.all_eq_true.mp h2 'x' (by rw [hs]; simp)
        exact absurd hx (by decide)
    have hn : normalize0x s = s := by rw [normalize0x, if_pos hp]
    have hlen : s.length = 42 := by
      rw [hs]
      simp [hd.1]
    rw [hn]
    simp only [getChecksumAddress]
    rw [if_pos ⟨hlen, hp, hd.2⟩]
    rfl
  · have hq : s.length = 40 ∧ s.all isHexChar = true := by
      rcases h with ⟨h1, _, _⟩ | h2
      · exact absurd h1 hp
      · exact h2
    have hn : normalize0x s = '0' :: 'x' :: s := by rw [normalize0x, if_neg hp]
    rw [hn]
    simp only [getChecksumAddress]
    rw [if_pos ⟨by simp [hq.1], rfl, hq.2⟩]
    rfl

/-- C4, amended.  Address validation.  For a string of exactly 40 hex
characters after an optional `0x` prefix, the validator accepts it exactly
when its letters do not mix cases, or the mixed-case string equals its own
EIP-55 checksummed form; the claimed unconditional acceptance of every
case mixture fails on mixed-case strings with a wrong checksum. -/
theorem c4_checksum_validation (s : Str) (h : specAddr40Hex s = true) :
    isAddress s = true ↔
      (mixedHexCase (normalize0x s) = false ∨
        getChecksumAddress (normalize0x s) = some (normalize0x s)) := by
  have hx : hexShape40 s = true := spec_shape_imp_hexShape s h
  obtain ⟨r, hr⟩ := Option.isSome_iff_exists.mp (getChecksumAddress_of_shape s hx)
  rw [isAddress, getAddress, if_pos hx, hr]
  cases hm : mixedHexCase (normalize0x s)
  · simp
  · simp only [Bool.true_and]
    cases hb : (r == normalize0x s)
    · have hne : r ≠ normalize0x s := beq_eq_false_iff_ne.mp hb
      simp [hb, hne]
    · have heq : r = normalize0x s := beq_iff_eq.mp hb
      simp [hb, heq]

/-- C4, amended, witness. -/
theorem c4_witness :
    specAddr40Hex addrB = true ∧
      (isAddress addrB = true ↔
        (mixedHexCase (normalize0x addrB) = false ∨
          getChecksumAddress (normalize0x addrB) = some (normalize0x addrB))) :=
  ⟨by decide, c4_checksum_validation addrB (by decide)⟩
